import Mathlib

/-!
Shallow embedding of `src/server.py` (webhook-to-push-notification relay).

Pure string helpers model the Python builtins used by the server:
`str.strip`, `str.splitlines`, `c in s`, and `json.dump` on a list of
strings with `indent=2`.  `json.loads` is an external stdlib collaborator
and is passed in as an abstract `parse : String → Option PyJson`.
Filesystem effects (`Path.replace`, `open`) are modelled by an explicit
`FS` record plus booleans saying which operation raises.  Whitespace is
modelled with `Char.isWhitespace` (space, tab, CR, LF), which covers the
characters Python strips in the payloads at hand.
-/

/-- Python `str.strip()`: drop whitespace from both ends. -/
def pyStrip (s : String) : String :=
  String.mk (((s.data.dropWhile Char.isWhitespace).reverse.dropWhile Char.isWhitespace).reverse)

/-- Split a character list at newline characters (auxiliary for `pySplitlines`). -/
def splitNl : List Char → List (List Char)
  | [] => [[]]
  | c :: cs =>
    match splitNl cs with
    | [] => [[]]
    | l :: ls => if c = '\n' then [] :: l :: ls else (c :: l) :: ls

/-- Python `str.splitlines()`: split at newlines; a trailing newline yields no
trailing empty line, and the empty string yields no lines. -/
def pySplitlines (s : String) : List String :=
  let r := splitNl s.data
  (if r.getLast? = some [] then r.dropLast else r).map (fun cs => String.mk cs)

/-- Python `c in s` on strings, for a single character. -/
def pyIn (c : Char) (s : String) : Bool := s.data.contains c

/-- JSON string escaping for one character (as `json.dump` produces it). -/
def jsonEscapeChar (c : Char) : List Char :=
  if c = '\\' then ['\\', '\\']
  else if c = '"' then ['\\', '"']
  else if c = '\n' then ['\\', 'n']
  else if c = '\r' then ['\\', 'r']
  else if c = '\t' then ['\\', 't']
  else [c]

/-- Quote a string as a JSON string literal. -/
def jsonQuote (s : String) : String :=
  String.mk ('"' :: (s.data.flatMap jsonEscapeChar ++ ['"']))

/-- Python `json.dump(list_of_strings, f, indent=2)` : the exact text written
by `save_tokens` for a given token list. -/
def pyDumps (tokens : List String) : String :=
  match tokens with
  | [] => "[]"
  | _ => "[\n  " ++ String.intercalate ",\n  " (tokens.map jsonQuote) ++ "\n]"

/-- A token is well-formed for `/register` when, after stripping, it is
non-empty and contains the `:` separator (server.py line 127). -/
def wellFormedTok (t : String) : Prop := t ≠ "" ∧ pyIn ':' t = true

instance (t : String) : Decidable (wellFormedTok t) := by
  unfold wellFormedTok; infer_instance

/-- One loot item of the webhook payload.  The webhook code reads the dict
fields with `x.get('name', 'Unknown')`, `x.get('quantity', 1)`,
`x.get('priceEach', 0)`, so each field is optional. -/
structure Item where
  name : Option String
  quantity : Option Int
  priceEach : Option Int
deriving DecidableEq, Repr

/-- The sort key of server.py line 153:
`x.get('priceEach', 0) * x.get('quantity', 1)`. -/
def itemKey (x : Item) : Int := x.priceEach.getD 0 * x.quantity.getD 1

/-- Python `max(items, key=key)`: on ties the FIRST element with the maximal
key is kept, because the running maximum is replaced only on a strictly
greater key; `max` of an empty sequence raises, modelled as `none`. -/
def pyMaxBy (key : Item → Int) : List Item → Option Item
  | [] => none
  | x :: xs => some (xs.foldl (fun acc y => if key acc < key y then y else acc) x)

/-- Top-item selection of server.py line 153. -/
def selectTopItem (items : List Item) : Option Item := pyMaxBy itemKey items

/-- The `extra` object of the webhook payload. -/
structure Extra where
  items : Option (List Item)
  source : Option String

/-- A parsed `payload_json` value, restricted to the shape the handler reads. -/
structure Payload where
  extra : Option Extra

/-- Outcome of the `/webhook` handler: the ignored body, the except-branch
error body, or the loot notification body built from the selected top item
(delivery results to devices are network effects, not modelled). -/
inductive WebhookResponse where
  | ignored
  | errorResp
  | loot (name : String) (quantity : Int) (value : Int) (source : Option String)
deriving DecidableEq, Repr

/-- HTTP status code attached to each `/webhook` outcome (lines 161, 165). -/
def WebhookResponse.code : WebhookResponse → Nat
  | .ignored => 200
  | .errorResp => 500
  | .loot _ _ _ _ => 200

/-- The `/webhook` handler (server.py lines 145-165).  `parse` stands for
`json.loads`; `none` means it raised, which the catch-all except turns into
the 500 error response.  `form` is the `payload_json` form field when the
request carries one. -/
def webhook (parse : String → Option Payload) (form : Option String) : WebhookResponse :=
  match form with
  | none => .ignored
  | some payloadJson =>
    match parse payloadJson with
    | none => .errorResp
    | some payload =>
      match payload.extra with
      | none => .ignored
      | some extra =>
        match extra.items with
        | none => .ignored
        | some items =>
          match selectTopItem items with
          | none => .ignored
          | some top =>
            .loot (top.name.getD "Unknown") (top.quantity.getD 1)
              (top.priceEach.getD 0 * top.quantity.getD 1) extra.source

/-- A parsed JSON value as far as `load_tokens` inspects it: a string, a
list, or anything else (`isinstance` checks only these two shapes). -/
inductive PyJson where
  | str (s : String)
  | arr (elems : List PyJson)
  | other

/-- Line-by-line recovery of server.py lines 47-50: keep `line.strip()` for
every line whose stripped length exceeds 10 and which contains `:`
(membership is tested on the unstripped line). -/
def lineRecovery (content : String) : Finset String :=
  ((pySplitlines content).filterMap (fun line =>
    let t := pyStrip line
    if 10 < t.length ∧ pyIn ':' line = true then some t else none)).toFinset

/-- The token-file reader `load_tokens` (server.py lines 24-55).  `file` is
`none` when the file is absent or any I/O step raises (the outer except
returns the still-empty set); otherwise it is the raw file content.
`parse` stands for `json.loads`; a successful parse that is a list keeps its
string elements longer than 10 characters, while a parse failure or a
non-list value falls through to line recovery. -/
def loadTokens (parse : String → Option PyJson) (file : Option String) : Finset String :=
  match file with
  | none => ∅
  | some raw =>
    let content := pyStrip raw
    if content = "" then ∅
    else
      match parse content with
      | some (PyJson.arr data) =>
        (data.filterMap (fun j =>
          match j with
          | PyJson.str t => if 10 < t.length then some t else none
          | _ => none)).toFinset
      | _ => lineRecovery content

/-- Files touched by `save_tokens`: the token file, its `.bak` backup and the
`.tmp` staging file, each `none` when absent, else its text content. -/
structure FS where
  tokenFile : Option String
  bakFile : Option String
  tmpFile : Option String
deriving DecidableEq, Repr

/-- The token-file writer `save_tokens` (server.py lines 57-72).  The whole
body sits in one `try` whose except only logs, so the first raising step
ends the function with the filesystem as that step left it.  The three
booleans say whether the backup rename, the temp-file write, or the final
atomic rename raises.  A raising `open(...,'w')`/`json.dump` leaves a
truncated temp file. -/
def saveTokens (tokens : List String) (backupRaises writeRaises replaceRaises : Bool)
    (fs : FS) : FS :=
  if fs.tokenFile.isSome && backupRaises then fs
  else
    let fs1 := if fs.tokenFile.isSome then
      { fs with bakFile := fs.tokenFile, tokenFile := none } else fs
    if writeRaises then { fs1 with tmpFile := some "" }
    else
      let fs2 := { fs1 with tmpFile := some (pyDumps tokens) }
      if replaceRaises then fs2
      else { fs2 with tokenFile := fs2.tmpFile, tmpFile := none }

/-- Response bodies of the `/register` handler with their HTTP codes. -/
inductive RegResponse where
  | missingToken
  | invalidFormat
  | success (total : Nat) (isNew : Bool)
deriving DecidableEq, Repr

/-- HTTP status code of each `/register` response (lines 124, 128, 139). -/
def RegResponse.code : RegResponse → Nat
  | .missingToken => 400
  | .invalidFormat => 400
  | .success _ _ => 200

/-- Whether the response body carries `status: success`. -/
def RegResponse.isSuccess : RegResponse → Bool
  | .success _ _ => true
  | _ => false

/-- The `total_devices` field of a success response. -/
def RegResponse.total? : RegResponse → Option Nat
  | .success n _ => some n
  | _ => none

/-- Result of one `/register` call: the in-memory token set (the Python
`set` is modelled as a duplicate-free list, the membership guard below
maintaining the no-duplicate invariant), the filesystem, whether
`save_tokens` was invoked, and the HTTP response. -/
structure RegResult where
  state : List String
  fs : FS
  saved : Bool
  response : RegResponse
deriving DecidableEq, Repr

/-- The `/register` handler `register_device` (server.py lines 119-143).
`body` is `none` for a missing/empty JSON body and `some none` when the
`token` key is absent; otherwise the raw token string.  A token absent from
the set is added and the whole set saved; the response is built AFTER the
insertion, so `is_new` tests membership against the already-updated set. -/
def registerDevice (st : List String) (fs : FS) (b w r : Bool)
    (body : Option (Option String)) : RegResult :=
  match body with
  | none => ⟨st, fs, false, .missingToken⟩
  | some none => ⟨st, fs, false, .missingToken⟩
  | some (some raw) =>
    let token := pyStrip raw
    if token = "" ∨ ¬ pyIn ':' token = true then ⟨st, fs, false, .invalidFormat⟩
    else if token ∉ st then
      let st' := token :: st
      ⟨st', saveTokens st' b w r fs, true,
        .success st'.length (decide (token ∉ st'))⟩
    else ⟨st, fs, false, .success st.length (decide (token ∉ st))⟩

/-- The retry loop of `send_fcm_notification_with_retry` (server.py lines
200-239).  `succ k` says whether the k-th attempt (1-based) succeeds; `fuel`
is the number of iterations the `while attempt <= max_retries` guard still
admits, so `fuel = 0` is the guard failing, where the Python function would
fall off the end and return `None`.  The accumulated list records each
`time.sleep(2 ** attempt)` duration in order. -/
def retryGo (succ : Nat → Bool) (maxRetries : Nat) :
    Nat → Nat → List Nat → Option (Bool × Nat) × List Nat
  | 0, _, delays => (none, delays.reverse)
  | fuel + 1, attempt, delays =>
    let a := attempt + 1
    if succ a then (some (true, a), delays.reverse)
    else if a ≤ maxRetries then retryGo succ maxRetries fuel a (2 ^ a :: delays)
    else (some (false, a), delays.reverse)

/-- `send_fcm_notification_with_retry(token, title, body, max_retries)`:
the loop starts at `attempt = 0`, so the guard admits `max_retries + 1`
iterations.  Returns the `(success, attempts)` pair (or `none` for the
unreachable fall-off-the-end) together with the slept delays. -/
def send_fcm_notification_with_retry (succ : Nat → Bool) (max_retries : Nat) :
    Option (Bool × Nat) × List Nat :=
  retryGo succ max_retries (max_retries + 1) 0 []

/-- The folding step of `pyMaxBy`: keep the accumulator unless the new
element's key is strictly greater. -/
def pyMaxStep (key : Item → Int) (acc y : Item) : Item :=
  if key acc < key y then y else acc

theorem pyMaxBy_eq_foldl (key : Item → Int) (x : Item) (xs : List Item) :
    pyMaxBy key (x :: xs) = some (xs.foldl (pyMaxStep key) x) := rfl

theorem key_le_foldl (key : Item → Int) (xs : List Item) :
    ∀ a : Item, key a ≤ key (xs.foldl (pyMaxStep key) a) := by
  induction xs with
  | nil => intro a; exact le_refl _
  | cons y ys ih =>
    intro a
    refine le_trans ?_ (ih (pyMaxStep key a y))
    unfold pyMaxStep
    split
    · exact le_of_lt (by assumption)
    · exact le_refl _

theorem mem_key_le_foldl (key : Item → Int) (xs : List Item) :
    ∀ a x, x ∈ xs → key x ≤ key (xs.foldl (pyMaxStep key) a) := by
  induction xs with
  | nil => intro a x hx; exact absurd hx (List.not_mem_nil x)
  | cons y ys ih =>
    intro a x hx
    rcases List.mem_cons.mp hx with h | h
    · subst h
      refine le_trans ?_ (key_le_foldl key ys (pyMaxStep key a x))
      unfold pyMaxStep
      split
      · exact le_refl _
      · exact le_of_not_lt (by assumption)
    · exact ih (pyMaxStep key a y) x h

theorem foldl_find?_first (key : Item → Int) (xs : List Item) :
    ∀ a : Item,
      (a :: xs).find? (fun x => key x == key (xs.foldl (pyMaxStep key) a)) =
        some (xs.foldl (pyMaxStep key) a) := by
  induction xs with
  | nil =>
    intro a
    simp [List.find?]
  | cons y ys ih =>
    intro a
    by_cases hlt : key a < key y
    · have hstep : pyMaxStep key a y = y := if_pos hlt
      have hr : (y :: ys).foldl (pyMaxStep key) a = ys.foldl (pyMaxStep key) y := by
        simp [List.foldl, hstep]
      rw [hr]
      have hay : key a < key (ys.foldl (pyMaxStep key) y) :=
        lt_of_lt_of_le hlt (key_le_foldl key ys y)
      have hpa : (key a == key (ys.foldl (pyMaxStep key) y)) = false := by
        simp [ne_of_lt hay]
      simp only [List.find?_cons, hpa]
      exact ih y
    · have hstep : pyMaxStep key a y = a := if_neg hlt
      have hr : (y :: ys).foldl (pyMaxStep key) a = ys.foldl (pyMaxStep key) a := by
        simp [List.foldl, hstep]
      rw [hr]
      have iha := ih a
      by_cases hpa : (key a == key (ys.foldl (pyMaxStep key) a)) = true
      · have h1 : (a :: ys).find? (fun x => key x == key (ys.foldl (pyMaxStep key) a)) =
            some a := by
          simp only [List.find?_cons, hpa]
        have h2 : a = ys.foldl (pyMaxStep key) a := Option.some.inj (h1.symm.trans iha)
        simp only [List.find?_cons, hpa]
        rw [← h2]
      · have hpa' : (key a == key (ys.foldl (pyMaxStep key) a)) = false := by
          simpa using hpa
        have hpy : (key y == key (ys.foldl (pyMaxStep key) a)) = false := by
          by_contra hc
          have hy : key y = key (ys.foldl (pyMaxStep key) a) := by
            have hb : (key y == key (ys.foldl (pyMaxStep key) a)) = true := by
              simpa using hc
            exact beq_iff_eq.mp hb
          have hya : key y ≤ key a := le_of_not_lt hlt
          have haf : key a ≤ key (ys.foldl (pyMaxStep key) a) := key_le_foldl key ys a
          have heq : key a = key (ys.foldl (pyMaxStep key) a) :=
            le_antisymm haf (hy ▸ hya)
          exact hpa (beq_iff_eq.mpr heq)
        have iha' : ys.find? (fun x => key x == key (ys.foldl (pyMaxStep key) a)) =
            some (ys.foldl (pyMaxStep key) a) := by
          simpa only [List.find?_cons, hpa'] using iha
        simp only [List.find?_cons, hpa', hpy]
        exact iha'

/-- C7: for a non-empty item list in which every item carries both the
`quantity` and the `priceEach` field, the webhook's top-item selection
returns an item of the list whose `quantity * priceEach` key is maximal,
and that item is the first of the list achieving the maximal key (ties are
broken by first occurrence in the original sequence). -/
theorem selectTopItem_max_first (l : List Item) (hne : l ≠ [])
    (hfields : ∀ x ∈ l, x.quantity ≠ none ∧ x.priceEach ≠ none) :
    ∃ top, selectTopItem l = some top ∧ top ∈ l ∧
      (∀ x ∈ l, itemKey x ≤ itemKey top) ∧
      l.find? (fun x => itemKey x == itemKey top) = some top := by
  match l, hne with
  | a :: xs, _ =>
    refine ⟨xs.foldl (pyMaxStep itemKey) a, rfl, ?_, ?_, foldl_find?_first itemKey xs a⟩
    · exact List.mem_of_find?_eq_some (foldl_find?_first itemKey xs a)
    · intro x hx
      rcases List.mem_cons.mp hx with h | h
      · subst h; exact key_le_foldl itemKey xs x
      · exact mem_key_le_foldl itemKey xs a x h

/-- C7 witness: on the spec's example the selection picks the second item
(3 x 50 = 150 beats 1 x 100). -/
theorem selectTopItem_max_first_witness :
    ([⟨some "coins", some 1, some 100⟩, ⟨some "rune", some 3, some 50⟩] : List Item) ≠ [] ∧
    ∃ top,
      selectTopItem [⟨some "coins", some 1, some 100⟩, ⟨some "rune", some 3, some 50⟩] =
        some top ∧
      top ∈ [(⟨some "coins", some 1, some 100⟩ : Item), ⟨some "rune", some 3, some 50⟩] ∧
      (∀ x ∈ [(⟨some "coins", some 1, some 100⟩ : Item), ⟨some "rune", some 3, some 50⟩],
        itemKey x ≤ itemKey top) ∧
      List.find? (fun x => itemKey x == itemKey top)
        [(⟨some "coins", some 1, some 100⟩ : Item), ⟨some "rune", some 3, some 50⟩] =
          some top :=
  ⟨by decide, selectTopItem_max_first _ (by decide) (by decide)⟩

theorem foldl_const_key (key : Item → Int) (xs : List Item) :
    ∀ a, (∀ x ∈ xs, key x = key a) → xs.foldl (pyMaxStep key) a = a := by
  induction xs with
  | nil => intro a _; rfl
  | cons y ys ih =>
    intro a h
    have hy : key y = key a := h y (List.mem_cons_self y ys)
    have hstep : pyMaxStep key a y = a := by
      unfold pyMaxStep
      rw [hy]
      simp
    simp only [List.foldl, hstep]
    exact ih a (fun x hx => h x (List.mem_cons_of_mem y hx))

/-- C10: an item lacking `priceEach` enters the selection with price 0 and
an item lacking `quantity` with quantity 1; items with missing fields are
never rejected, and when every item of a non-empty list lacks `priceEach`
the selection returns the first item of the list, whose key is 0. -/
theorem selectTopItem_missing_fields (l : List Item) (hne : l ≠ [])
    (hnone : ∀ x ∈ l, x.priceEach = none) :
    (∀ x : Item, x.priceEach = none → itemKey x = 0) ∧
    (∀ x : Item, x.quantity = none → itemKey x = x.priceEach.getD 0) ∧
    selectTopItem l = l.head? ∧
    (∃ top, selectTopItem l = some top ∧ itemKey top = 0) := by
  have hkey0 : ∀ x : Item, x.priceEach = none → itemKey x = 0 := by
    intro x h; unfold itemKey; rw [h]; simp
  refine ⟨hkey0, ?_, ?_, ?_⟩
  · intro x h; unfold itemKey; rw [h]; simp
  · match l, hne with
    | a :: xs, _ =>
      have hfold : xs.foldl (pyMaxStep itemKey) a = a := by
        refine foldl_const_key itemKey xs a (fun x hx => ?_)
        rw [hkey0 x (hnone x (List.mem_cons_of_mem a hx)),
          hkey0 a (hnone a (List.mem_cons_self a xs))]
      show some (xs.foldl (pyMaxStep itemKey) a) = (a :: xs).head?
      rw [hfold]; rfl
  · match l, hne with
    | a :: xs, _ =>
      have hfold : xs.foldl (pyMaxStep itemKey) a = a := by
        refine foldl_const_key itemKey xs a (fun x hx => ?_)
        rw [hkey0 x (hnone x (List.mem_cons_of_mem a hx)),
          hkey0 a (hnone a (List.mem_cons_self a xs))]
      exact ⟨a, by show some (xs.foldl (pyMaxStep itemKey) a) = some a; rw [hfold],
        hkey0 a (hnone a (List.mem_cons_self a xs))⟩

/-- C10 witness: both items lack `priceEach`; the first is selected with
key 0. -/
theorem selectTopItem_missing_fields_witness :
    ([⟨some "bones", some 5, none⟩, ⟨some "ashes", some 2, none⟩] : List Item) ≠ [] ∧
    ((∀ x : Item, x.priceEach = none → itemKey x = 0) ∧
    (∀ x : Item, x.quantity = none → itemKey x = x.priceEach.getD 0) ∧
    selectTopItem [⟨some "bones", some 5, none⟩, ⟨some "ashes", some 2, none⟩] =
      ([⟨some "bones", some 5, none⟩, ⟨some "ashes", some 2, none⟩] : List Item).head? ∧
    (∃ top,
      selectTopItem [⟨some "bones", some 5, none⟩, ⟨some "ashes", some 2, none⟩] = some top ∧
      itemKey top = 0)) :=
  ⟨by decide, selectTopItem_missing_fields _ (by decide) (by decide)⟩

theorem pow_delays_cons (off m : Nat) :
    (List.range (m + 1)).map (fun n => 2 ^ (off + n)) =
      2 ^ off :: (List.range m).map (fun n => 2 ^ (off + 1 + n)) := by
  rw [List.range_succ_eq_map, List.map_cons, List.map_map]
  refine congrArg₂ List.cons (by simp) ?_
  refine List.map_congr_left (fun n _ => ?_)
  show 2 ^ (off + (n + 1)) = 2 ^ (off + 1 + n)
  congr 1
  omega

theorem retryGo_all_fail (succ : Nat → Bool) (maxRetries : Nat) :
    ∀ fuel attempt delays, attempt + fuel = maxRetries + 1 → 1 ≤ fuel →
      (∀ j, attempt < j → j ≤ maxRetries + 1 → succ j = false) →
      retryGo succ maxRetries fuel attempt delays =
        (some (false, maxRetries + 1),
          delays.reverse ++
            (List.range (maxRetries - attempt)).map (fun n => 2 ^ (attempt + 1 + n))) := by
  intro fuel
  induction fuel with
  | zero => intro attempt delays _ h1; exact absurd h1 (by omega)
  | succ fuel ih =>
    intro attempt delays hsum _ hfail
    have hs : succ (attempt + 1) = false :=
      hfail (attempt + 1) (by omega) (by omega)
    by_cases hle : attempt + 1 ≤ maxRetries
    · have hrec := ih (attempt + 1) (2 ^ (attempt + 1) :: delays)
        (by omega) (by omega)
        (fun j hj hj2 => hfail j (by omega) hj2)
      simp only [retryGo, hs, Bool.false_eq_true, if_false, if_pos hle]
      rw [hrec, List.reverse_cons, List.append_assoc]
      have hm : maxRetries - attempt = (maxRetries - (attempt + 1)) + 1 := by omega
      rw [hm, pow_delays_cons]
      rfl
    · have ha : attempt = maxRetries := by omega
      simp only [retryGo, hs, Bool.false_eq_true, if_false, if_neg hle]
      rw [ha]
      simp

theorem retryGo_first_succ (succ : Nat → Bool) (maxRetries : Nat) :
    ∀ fuel attempt delays k, attempt + fuel = maxRetries + 1 →
      attempt < k → k ≤ maxRetries + 1 → succ k = true →
      (∀ j, attempt < j → j < k → succ j = false) →
      retryGo succ maxRetries fuel attempt delays =
        (some (true, k),
          delays.reverse ++
            (List.range (k - 1 - attempt)).map (fun n => 2 ^ (attempt + 1 + n))) := by
  intro fuel
  induction fuel with
  | zero => intro attempt delays k hsum hlt hle _ _; exact absurd hlt (by omega)
  | succ fuel ih =>
    intro attempt delays k hsum hlt hle hk hfail
    by_cases hka : k = attempt + 1
    · have hs : succ (attempt + 1) = true := hka ▸ hk
      simp only [retryGo, hs, if_pos]
      have h0 : k - 1 - attempt = 0 := by omega
      rw [hka]
      simp [h0]
    · have hs : succ (attempt + 1) = false :=
        hfail (attempt + 1) (by omega) (by omega)
      have hle' : attempt + 1 ≤ maxRetries := by omega
      have hrec := ih (attempt + 1) (2 ^ (attempt + 1) :: delays) k
        (by omega) (by omega) hle hk
        (fun j hj hj2 => hfail j (by omega) hj2)
      simp only [retryGo, hs, Bool.false_eq_true, if_false, if_pos hle']
      rw [hrec, List.reverse_cons, List.append_assoc]
      have hm : k - 1 - attempt = (k - 1 - (attempt + 1)) + 1 := by omega
      rw [hm, pow_delays_cons]
      rfl

/-- C5: in `send_fcm_notification_with_retry`, when every attempt fails the
result is `success = false` with `attempts = maxRetries + 1` and the slept
delays are 2^1, ..., 2^maxRetries seconds; when the k-th attempt (1-based,
k <= maxRetries + 1) is the first to succeed, the result is
`success = true` with `attempts = k`, returned immediately after delays
2^1, ..., 2^(k-1) — i.e. the delay slept before retry n+1 is 2^n. -/
theorem sendWithRetry_spec (maxRetries : Nat) (succ : Nat → Bool) :
    ((∀ j, 1 ≤ j → j ≤ maxRetries + 1 → succ j = false) →
      send_fcm_notification_with_retry succ maxRetries =
        (some (false, maxRetries + 1),
          (List.range maxRetries).map (fun n => 2 ^ (n + 1)))) ∧
    (∀ k, 1 ≤ k → k ≤ maxRetries + 1 → succ k = true →
      (∀ j, 1 ≤ j → j < k → succ j = false) →
      send_fcm_notification_with_retry succ maxRetries =
        (some (true, k), (List.range (k - 1)).map (fun n => 2 ^ (n + 1)))) := by
  have hpow : (fun n => 2 ^ (0 + 1 + n)) = (fun n => 2 ^ (n + 1)) := by
    funext n
    congr 1
    omega
  constructor
  · intro hall
    have h := retryGo_all_fail succ maxRetries (maxRetries + 1) 0 []
      (by omega) (by omega) (fun j hj hj2 => hall j (by omega) hj2)
    simpa [send_fcm_notification_with_retry, hpow] using h
  · intro k hk1 hk2 hks hfail
    have h := retryGo_first_succ succ maxRetries (maxRetries + 1) 0 [] k
      (by omega) (by omega) hk2 hks (fun j hj hj2 => hfail j (by omega) hj2)
    simpa [send_fcm_notification_with_retry, hpow] using h

/-- C5 witness: with a provider that always fails and max_retries = 3 the
result is (false, 4) after sleeping 2, 4 and 8 seconds. -/
theorem sendWithRetry_spec_witness :
    send_fcm_notification_with_retry (fun _ => false) 3 = (some (false, 4), [2, 4, 8]) := by
  have h := (sendWithRetry_spec 3 (fun _ => false)).1 (fun j _ _ => rfl)
  simpa using h

/-- C8: `load_tokens` is a total function (so it never raises).  When the
stripped file content is non-empty and does not parse as a JSON list, the
result is exactly the line-oriented recovery set, whose members are
characterized as the stripped lines of stripped length exceeding 10 that
contain the `:` separator; an absent file or any I/O error yields the empty
set, as does a file whose stripped content is empty. -/
theorem load_tokens_robust (parse : String → Option PyJson) (raw : String)
    (hne : pyStrip raw ≠ "")
    (hnl : ∀ d, parse (pyStrip raw) ≠ some (PyJson.arr d)) :
    loadTokens parse (some raw) = lineRecovery (pyStrip raw) ∧
    (∀ t, t ∈ loadTokens parse (some raw) ↔
      ∃ line ∈ pySplitlines (pyStrip raw),
        t = pyStrip line ∧ 10 < t.length ∧ pyIn ':' line = true) ∧
    loadTokens parse none = ∅ ∧
    (∀ r2, pyStrip r2 = "" → loadTokens parse (some r2) = ∅) := by
  have hmain : loadTokens parse (some raw) = lineRecovery (pyStrip raw) := by
    show (if pyStrip raw = "" then ∅
      else match parse (pyStrip raw) with
        | some (PyJson.arr data) =>
          (data.filterMap (fun j =>
            match j with
            | PyJson.str t => if 10 < t.length then some t else none
            | _ => none)).toFinset
        | _ => lineRecovery (pyStrip raw)) = lineRecovery (pyStrip raw)
    rw [if_neg hne]
    cases hp : parse (pyStrip raw) with
    | none => rfl
    | some j =>
      cases j with
      | str s => rfl
      | arr d => exact absurd hp (hnl d)
      | other => rfl
  refine ⟨hmain, ?_, rfl, ?_⟩
  · intro t
    rw [hmain]
    unfold lineRecovery
    rw [List.mem_toFinset, List.mem_filterMap]
    constructor
    · rintro ⟨line, hline, hf⟩
      by_cases hc : 10 < (pyStrip line).length ∧ pyIn ':' line = true
      · rw [if_pos hc] at hf
        obtain ⟨hf⟩ := hf
        exact ⟨line, hline, rfl, hc.1, hc.2⟩
      · rw [if_neg hc] at hf
        exact absurd hf (Option.noConfusion)
    · rintro ⟨line, hline, ht, hlen, hin⟩
      refine ⟨line, hline, ?_⟩
      subst ht
      rw [if_pos ⟨hlen, hin⟩]
  · intro r2 h2
    show (if pyStrip r2 = "" then ∅
      else match parse (pyStrip r2) with
        | some (PyJson.arr data) =>
          (data.filterMap (fun j =>
            match j with
            | PyJson.str t => if 10 < t.length then some t else none
            | _ => none)).toFinset
        | _ => lineRecovery (pyStrip r2)) = (∅ : Finset String)
    rw [if_pos h2]

/-- C8 witness: a corrupt two-line file where `json.loads` fails; only the
line over 10 characters containing `:` is recovered. -/
theorem load_tokens_robust_witness :
    pyStrip "xx\nabcdefgh:klm\nshort:1" ≠ "" ∧
    (loadTokens (fun _ => none) (some "xx\nabcdefgh:klm\nshort:1") =
      lineRecovery (pyStrip "xx\nabcdefgh:klm\nshort:1") ∧
    (∀ t, t ∈ loadTokens (fun _ => none) (some "xx\nabcdefgh:klm\nshort:1") ↔
      ∃ line ∈ pySplitlines (pyStrip "xx\nabcdefgh:klm\nshort:1"),
        t = pyStrip line ∧ 10 < t.length ∧ pyIn ':' line = true) ∧
    loadTokens (fun _ => none) none = ∅ ∧
    (∀ r2, pyStrip r2 = "" → loadTokens (fun _ => none) (some r2) = ∅)) :=
  ⟨by decide, load_tokens_robust (fun _ => none) "xx\nabcdefgh:klm\nshort:1" (by decide)
    (fun d h => Option.noConfusion h)⟩

theorem filterMap_len_id (l : List String) (h : ∀ t ∈ l, 10 < t.length) :
    l.filterMap (fun t => if 10 < t.length then some t else none) = l := by
  induction l with
  | nil => rfl
  | cons x xs ih =>
    rw [List.filterMap_cons]
    rw [if_pos (h x (List.mem_cons_self x xs))]
    rw [ih (fun t ht => h t (List.mem_cons_of_mem x ht))]

/-- C2 (amended): saving a token list with `save_tokens` and loading it back
with `load_tokens` yields exactly the saved tokens as a set, PROVIDED every
token is longer than 10 characters — the JSON branch of `load_tokens`
filters entries with `len(t) > 10`, so shorter tokens, although accepted by
`/register`, do not survive the round trip.  `hparse` states that
`json.loads` inverts `json.dump` on this content. -/
theorem save_load_roundtrip (parse : String → Option PyJson) (l : List String)
    (h11 : ∀ t ∈ l, 10 < t.length)
    (hne : pyStrip (pyDumps l) ≠ "")
    (hparse : parse (pyStrip (pyDumps l)) = some (PyJson.arr (l.map PyJson.str))) :
    loadTokens parse (some (pyDumps l)) = l.toFinset := by
  show (if pyStrip (pyDumps l) = "" then ∅
    else match parse (pyStrip (pyDumps l)) with
      | some (PyJson.arr data) =>
        (data.filterMap (fun j =>
          match j with
          | PyJson.str t => if 10 < t.length then some t else none
          | _ => none)).toFinset
      | _ => lineRecovery (pyStrip (pyDumps l))) = l.toFinset
  rw [if_neg hne, hparse]
  show ((l.map PyJson.str).filterMap (fun j =>
    match j with
    | PyJson.str t => if 10 < t.length then some t else none
    | _ => none)).toFinset = l.toFinset
  rw [List.filterMap_map]
  show (l.filterMap (fun t => if 10 < t.length then some t else none)).toFinset = l.toFinset
  rw [filterMap_len_id l h11]

/-- C2 witness: the round trip at a concrete 12-character token, with the
concrete `json.loads` result on the dumped content. -/
theorem save_load_roundtrip_witness :
    (∀ t ∈ ["abcdefghij:k"], 10 < t.length) ∧
    loadTokens (fun _ => some (PyJson.arr [PyJson.str "abcdefghij:k"]))
      (some (pyDumps ["abcdefghij:k"])) = (["abcdefghij:k"] : List String).toFinset :=
  ⟨by decide,
    save_load_roundtrip (fun _ => some (PyJson.arr [PyJson.str "abcdefghij:k"]))
      ["abcdefghij:k"] (by decide) (by decide) rfl⟩

/-- C2 counterexample: the token "a:b" is well-formed for `/register`
(non-empty, contains the separator), yet saving the set containing it and
loading the file back — with `json.loads` correctly parsing the dumped
content — yields the empty set, not the saved set. -/
theorem save_load_roundtrip_cex :
    wellFormedTok "a:b" ∧
    loadTokens
      (fun s => if s = pyStrip (pyDumps ["a:b"])
        then some (PyJson.arr [PyJson.str "a:b"]) else none)
      (some (pyDumps ["a:b"])) = (∅ : Finset String) ∧
    (∅ : Finset String) ≠ ({"a:b"} : Finset String) := by
  refine ⟨by decide, by decide, by decide⟩

/-- C1 (amended): when the `payload_json` form field is present but
`json.loads` raises on it, the `/webhook` handler returns the HTTP 500
error response produced by its catch-all except — NOT the 200 "ignored"
body; the "ignored" body is returned only when the field is absent or the
parsed payload lacks a non-empty `extra.items`. -/
theorem webhook_parse_error_500 (parse : String → Option Payload) (s : String)
    (h : parse s = none) :
    webhook parse (some s) = WebhookResponse.errorResp ∧
    (webhook parse (some s)).code = 500 ∧
    webhook parse none = WebhookResponse.ignored := by
  constructor
  · show (match parse s with
      | none => WebhookResponse.errorResp
      | some payload =>
        match payload.extra with
        | none => WebhookResponse.ignored
        | some extra =>
          match extra.items with
          | none => WebhookResponse.ignored
          | some items =>
            match selectTopItem items with
            | none => WebhookResponse.ignored
            | some top =>
              WebhookResponse.loot (top.name.getD "Unknown") (top.quantity.getD 1)
                (top.priceEach.getD 0 * top.quantity.getD 1) extra.source) =
      WebhookResponse.errorResp
    rw [h]
  · constructor
    · show (match parse s with
        | none => WebhookResponse.errorResp
        | some payload =>
          match payload.extra with
          | none => WebhookResponse.ignored
          | some extra =>
            match extra.items with
            | none => WebhookResponse.ignored
            | some items =>
              match selectTopItem items with
              | none => WebhookResponse.ignored
              | some top =>
                WebhookResponse.loot (top.name.getD "Unknown") (top.quantity.getD 1)
                  (top.priceEach.getD 0 * top.quantity.getD 1) extra.source).code = 500
      rw [h]
      rfl
    · rfl

/-- C1 witness: a concrete request whose payload fails to parse gets the
500 error response, while a request with no form field is ignored. -/
theorem webhook_parse_error_500_witness :
    (fun _ : String => (none : Option Payload)) "x" = none ∧
    (webhook (fun _ => none) (some "x") = WebhookResponse.errorResp ∧
    (webhook (fun _ => none) (some "x")).code = 500 ∧
    webhook (fun _ => none) none = WebhookResponse.ignored) :=
  ⟨rfl, webhook_parse_error_500 (fun _ => none) "x" rfl⟩

/-- C1 counterexample: a present but unparsable `payload_json` yields the
500 error response, not the 200 "ignored" body the claim asserts. -/
theorem webhook_parse_error_cex :
    webhook (fun _ => none) (some "not json at all") = WebhookResponse.errorResp ∧
    webhook (fun _ => none) (some "not json at all") ≠ WebhookResponse.ignored ∧
    (webhook (fun _ => none) (some "not json at all")).code = 500 := by
  refine ⟨rfl, by decide, rfl⟩

/-- C4 (amended): a failure of the preliminary backup rename ABORTS the
write: the whole body of `save_tokens` sits in a single try whose except
only logs, so when the backup rename raises the temp-file write and the
atomic rename are skipped and the filesystem is left exactly as it was. -/
theorem save_backup_failure_aborts (tokens : List String) (fs : FS) (w r : Bool)
    (h : fs.tokenFile.isSome = true) :
    saveTokens tokens true w r fs = fs := by
  unfold saveTokens
  rw [h]
  rfl

/-- C4 witness: with an existing token file and a raising backup rename the
filesystem is returned unchanged. -/
theorem save_backup_failure_aborts_witness :
    (FS.mk (some "x") none none).tokenFile.isSome = true ∧
    saveTokens ["newtokennew:1"] true false false (FS.mk (some "x") none none) =
      FS.mk (some "x") none none :=
  ⟨rfl, save_backup_failure_aborts ["newtokennew:1"] (FS.mk (some "x") none none)
    false false rfl⟩

/-- C4 counterexample: the backup rename raises, the write and atomic
rename do not take place, and the token file still holds the OLD content —
the new token list is not written, contradicting the claim. -/
theorem save_backup_failure_cex :
    (saveTokens ["newtokennew:1"] true false false
      (FS.mk (some (pyDumps ["oldtokenold:1"])) none none)).tokenFile =
        some (pyDumps ["oldtokenold:1"]) ∧
    (saveTokens ["newtokennew:1"] true false false
      (FS.mk (some (pyDumps ["oldtokenold:1"])) none none)).tokenFile ≠
        some (pyDumps ["newtokennew:1"]) := by
  refine ⟨rfl, by decide⟩

/-- C3: the code contradicts the intended `is_new`/`alreadyPresent`
semantics.  Registering a brand-new well-formed token into the EMPTY store
succeeds and adds the token, yet the response carries `is_new = false`,
because line 138 evaluates `token not in registered_tokens` only after
line 131 has already added the token. -/
theorem register_is_new_always_false :
    ("abcdefghij:k" ∉ ([] : List String)) ∧
    (registerDevice [] (FS.mk none none none) false false false
      (some (some "abcdefghij:k"))).response = RegResponse.success 1 false ∧
    (registerDevice [] (FS.mk none none none) false false false
      (some (some "abcdefghij:k"))).state = ["abcdefghij:k"] := by
  refine ⟨by decide, by decide, by decide⟩

theorem registerDevice_wf (st : List String) (fs : FS) (b w r : Bool) (raw : String)
    (hwf : wellFormedTok (pyStrip raw)) :
    registerDevice st fs b w r (some (some raw)) =
      if pyStrip raw ∈ st then
        ⟨st, fs, false, RegResponse.success st.length false⟩
      else
        ⟨pyStrip raw :: st, saveTokens (pyStrip raw :: st) b w r fs, true,
          RegResponse.success (st.length + 1) false⟩ := by
  obtain ⟨h1, h2⟩ := hwf
  have hg : ¬ (pyStrip raw = "" ∨ ¬ pyIn ':' (pyStrip raw) = true) := by
    rintro (hc | hc)
    · exact h1 hc
    · exact hc h2
  show (if pyStrip raw = "" ∨ ¬ pyIn ':' (pyStrip raw) = true then
      (⟨st, fs, false, RegResponse.invalidFormat⟩ : RegResult)
    else if pyStrip raw ∉ st then
      ⟨pyStrip raw :: st, saveTokens (pyStrip raw :: st) b w r fs, true,
        RegResponse.success (pyStrip raw :: st).length
          (decide (pyStrip raw ∉ pyStrip raw :: st))⟩
    else ⟨st, fs, false, RegResponse.success st.length (decide (pyStrip raw ∉ st))⟩) = _
  rw [if_neg hg]
  by_cases hm : pyStrip raw ∈ st
  · rw [if_neg (not_not_intro hm), if_pos hm]
    have hd : decide (pyStrip raw ∉ st) = false := by simp [hm]
    rw [hd]
  · rw [if_pos hm, if_neg hm]
    have hd : decide (pyStrip raw ∉ pyStrip raw :: st) = false := by
      simp [List.mem_cons_self]
    rw [hd]
    rfl

/-- C6: registering the same well-formed token twice is idempotent — the
second call leaves the token set and the reported totalCount unchanged,
does not invoke `save_tokens`, and both calls answer HTTP 200 with status
success. -/
theorem register_idempotent (st : List String) (fs : FS) (b w r : Bool) (raw : String)
    (hwf : wellFormedTok (pyStrip raw)) :
    let r1 := registerDevice st fs b w r (some (some raw))
    let r2 := registerDevice r1.state r1.fs b w r (some (some raw))
    r2.state = r1.state ∧ r2.saved = false ∧ r2.fs = r1.fs ∧
    r1.response.code = 200 ∧ r2.response.code = 200 ∧
    r1.response.isSuccess = true ∧ r2.response.isSuccess = true ∧
    r2.response.total? = r1.response.total? := by
  intro r1 r2
  have e0 : r1 = (if pyStrip raw ∈ st then
      (⟨st, fs, false, RegResponse.success st.length false⟩ : RegResult)
    else ⟨pyStrip raw :: st, saveTokens (pyStrip raw :: st) b w r fs, true,
      RegResponse.success (st.length + 1) false⟩) :=
    registerDevice_wf st fs b w r raw hwf
  by_cases hm : pyStrip raw ∈ st
  · rw [if_pos hm] at e0
    have e2 : r2 = ⟨st, fs, false, RegResponse.success st.length false⟩ := by
      show registerDevice r1.state r1.fs b w r (some (some raw)) = _
      rw [e0]
      show registerDevice st fs b w r (some (some raw)) = _
      rw [registerDevice_wf st fs b w r raw hwf, if_pos hm]
    rw [e0, e2]
    exact ⟨rfl, rfl, rfl, rfl, rfl, rfl, rfl, rfl⟩
  · rw [if_neg hm] at e0
    have hmem : pyStrip raw ∈ pyStrip raw :: st := List.mem_cons_self _ _
    have e2 : r2 = ⟨pyStrip raw :: st, saveTokens (pyStrip raw :: st) b w r fs, false,
        RegResponse.success (pyStrip raw :: st).length false⟩ := by
      show registerDevice r1.state r1.fs b w r (some (some raw)) = _
      rw [e0]
      show registerDevice (pyStrip raw :: st) (saveTokens (pyStrip raw :: st) b w r fs)
        b w r (some (some raw)) = _
      rw [registerDevice_wf (pyStrip raw :: st) (saveTokens (pyStrip raw :: st) b w r fs)
        b w r raw hwf, if_pos hmem]
    rw [e0, e2]
    exact ⟨rfl, rfl, rfl, rfl, rfl, rfl, rfl, rfl⟩

/-- C6 witness: registering the same concrete token twice into the empty
store. -/
theorem register_idempotent_witness :
    wellFormedTok (pyStrip "abcdefghij:k") ∧
    (let r1 := registerDevice [] (FS.mk none none none) false false false
      (some (some "abcdefghij:k"))
    let r2 := registerDevice r1.state r1.fs false false false
      (some (some "abcdefghij:k"))
    r2.state = r1.state ∧ r2.saved = false ∧ r2.fs = r1.fs ∧
    r1.response.code = 200 ∧ r2.response.code = 200 ∧
    r1.response.isSuccess = true ∧ r2.response.isSuccess = true ∧
    r2.response.total? = r1.response.total?) :=
  ⟨by decide, register_idempotent [] (FS.mk none none none) false false false
    "abcdefghij:k" (by decide)⟩

/-- C9: when the token is new, `register_device` adds it to the in-memory
set and answers HTTP 200 success with the incremented total regardless of
how `save_tokens` fares (its internal except swallows every exception); in
particular a raising backup rename leaves the on-disk state untouched while
the in-memory set already holds the token, so the two silently diverge. -/
theorem register_save_failure_keeps_token (st : List String) (fs : FS) (b w r : Bool)
    (raw : String) (hwf : wellFormedTok (pyStrip raw)) (hnew : pyStrip raw ∉ st) :
    let res := registerDevice st fs b w r (some (some raw))
    res.state = pyStrip raw :: st ∧
    pyStrip raw ∈ res.state ∧
    res.saved = true ∧
    res.response = RegResponse.success (st.length + 1) false ∧
    res.response.code = 200 ∧
    (fs.tokenFile.isSome = true → b = true → res.fs = fs) := by
  intro res
  have e0 : res = (if pyStrip raw ∈ st then
      (⟨st, fs, false, RegResponse.success st.length false⟩ : RegResult)
    else ⟨pyStrip raw :: st, saveTokens (pyStrip raw :: st) b w r fs, true,
      RegResponse.success (st.length + 1) false⟩) :=
    registerDevice_wf st fs b w r raw hwf
  rw [if_neg hnew] at e0
  rw [e0]
  refine ⟨rfl, List.mem_cons_self _ _, rfl, rfl, rfl, ?_⟩
  intro hsome hb
  subst hb
  show saveTokens (pyStrip raw :: st) true w r fs = fs
  unfold saveTokens
  rw [hsome]
  rfl

/-- C9 witness: a new token registered while the backup rename raises — the
response is 200 success with total 1, the token is in memory, and the old
token file is untouched. -/
theorem register_save_failure_keeps_token_witness :
    wellFormedTok (pyStrip "abcdefghij:k") ∧ "abcdefghij:k" ∉ ([] : List String) ∧
    (let res := registerDevice [] (FS.mk (some "old") none none) true false false
      (some (some "abcdefghij:k"))
    res.state = [pyStrip "abcdefghij:k"] ∧
    pyStrip "abcdefghij:k" ∈ res.state ∧
    res.saved = true ∧
    res.response = RegResponse.success 1 false ∧
    res.response.code = 200 ∧
    ((FS.mk (some "old") none none).tokenFile.isSome = true → true = true →
      res.fs = FS.mk (some "old") none none)) :=
  ⟨by decide, by decide,
    register_save_failure_keeps_token [] (FS.mk (some "old") none none) true false false
      "abcdefghij:k" (by decide) (by decide)⟩
